import Mathlib

/-!
Verification development for the InsightBridge security-primitive layer
(`src/INSIGHTBRIDGE_API/insightbridge_api.py` and
`src/INSIGHTBRIDGE_API/simple_test_api.py`).

The API layer under `src/` calls into core modules of the repository
(`src.auth.nonce_store`, `src.crypto.hashchain`, `src.receiver.receiver`,
`src.crypto.signer`, `src.common.persistence`) that live in the
`insightbridge-phase3` package and are not part of `src/`; those components
are modelled here from the specification, as marked in their doc comments.
Everything else (endpoint handlers, module-level initialization, the
threshold logic of `get_audit_status`, the shadowed `create_jwt` handler)
is translated directly from the Python source.
-/

namespace InsightBridge

/-! ## NonceGuard (replay protection) -/

/-- Modelled from the spec: the `NonceStore` class of `src.auth.nonce_store`
(not under `src/`).  A nonce record is a value together with the instant it
was first seen; `max_age_seconds` is the configured max-age window
(`NONCE_MAX_AGE`).  Instants are modelled as natural-number seconds. -/
structure NonceStore where
  timestamps : List (String × Nat)
  max_age_seconds : Nat
deriving Repr, DecidableEq

/-- First-seen instant recorded for a nonce value, if any.  Newer records are
consed to the front, so `find?` sees the most recent record first. -/
def NonceStore.lookup (s : NonceStore) (v : String) : Option Nat :=
  (s.timestamps.find? (fun p => p.1 == v)).map (fun p => p.2)

/-- Modelled from the spec: a value counts as seen within the window when a
record exists whose age is still below `max_age_seconds`; once the max-age has
elapsed the value is treated as fresh again. -/
def NonceStore.seenWithin (s : NonceStore) (v : String) (now : Nat) : Bool :=
  match s.lookup v with
  | some t => decide (now < t + s.max_age_seconds)
  | none => false

/-- Modelled from the spec: `check_and_accept` / `check_and_add` returns
`true` and records the value with the current instant if the value has not
been seen within the configured max-age window; returns `false` (replay)
otherwise, without modifying state. -/
def NonceStore.check_and_add (s : NonceStore) (v : String) (now : Nat) :
    Bool × NonceStore :=
  if s.seenWithin v now then
    (false, s)
  else
    (true, { s with timestamps := (v, now) :: s.timestamps })

/-! ## IngestReceiver (bounded integrity-checked buffer) -/

/-- Modelled from the spec: an inbound message, carrying an arbitrary payload
and the caller-supplied corruption-simulation flag used by the integrity
check. -/
structure Message where
  payload : String
  corrupted : Bool
deriving Repr, DecidableEq

/-- A message passes the structural integrity check when it is not marked
corrupted. -/
def Message.valid (m : Message) : Bool := !m.corrupted

/-- Modelled from the spec: the `Receiver` class of `src.receiver.receiver`
(not under `src/`): a fixed-capacity ordered buffer (oldest first) with
capacity `max_buffer` configured at construction
(`RECEIVER_BUFFER_SIZE`). -/
structure Receiver where
  buffer : List Message
  max_buffer : Nat
deriving Repr, DecidableEq

/-- Modelled from the spec: `receive` runs the integrity check, rejects when
the buffer is at capacity regardless of validity, and appends the message
(returning `true`) only when both checks pass. -/
def Receiver.receive (r : Receiver) (m : Message) : Bool × Receiver :=
  if m.valid = false then (false, r)
  else if r.max_buffer ≤ r.buffer.length then (false, r)
  else (true, { r with buffer := r.buffer ++ [m] })

/-- Feed a whole list of messages to the receiver, in order. -/
def Receiver.receiveAll (r : Receiver) (ms : List Message) : Receiver :=
  ms.foldl (fun acc m => (acc.receive m).2) r

/-! ## AuditChain (append-only hash chain) -/

/-- Modelled from the spec: the fixed, well-known `prev_hash` of entry 0
(genesis sentinel), returned by `last_hash` on an empty chain. -/
def genesis_sentinel : String := "GENESIS"

/-- One entry of the audit chain (spec data model `ChainEntry`). -/
structure ChainEntry where
  index : Nat
  timestamp : Nat
  payload : String
  prev_hash : String
  hash : String
deriving Repr, DecidableEq, Inhabited

/-- Modelled from the spec: the fixed cryptographic digest
`H(index, timestamp, payload, prev_hash)` of `src.crypto.hashchain`
(not under `src/`); the digest is modelled by an injective deterministic
encoding of its four inputs. -/
def digestH (index timestamp : Nat) (payload prev : String) : String :=
  "H|" ++ toString index ++ "|" ++ toString timestamp ++ "|" ++ payload
    ++ "|" ++ prev

/-- Modelled from the spec: the `HashChain` class of `src.crypto.hashchain`
(not under `src/`): an append-only list of entries in append order
(the `chain` attribute visible in the `lifespan` handler of
`insightbridge_api.py`). -/
structure HashChain where
  chain : List ChainEntry
deriving Repr, DecidableEq

/-- Hash of the last entry of a list, or `p` when the list is empty. -/
def lastHashFrom (p : String) : List ChainEntry → String
  | [] => p
  | e :: rest => lastHashFrom e.hash rest

/-- Modelled from the spec: `last_hash` returns the most recent entry's hash,
or the genesis sentinel if the chain is empty. -/
def HashChain.last_hash (c : HashChain) : String :=
  lastHashFrom genesis_sentinel c.chain

/-- Modelled from the spec: `append` computes the new entry deterministically
from the next index, the current timestamp, the payload and the previous
entry's hash (genesis sentinel if empty), appends it, and returns the new
hash.  The current timestamp is passed explicitly. -/
def HashChain.append (c : HashChain) (payload : String) (t : Nat) :
    String × HashChain :=
  let prev := c.last_hash
  let i := c.chain.length
  let h := digestH i t payload prev
  (h, ⟨c.chain ++ [⟨i, t, payload, prev, h⟩]⟩)

/-- Full read-only snapshot of the chain in append order (`to_list`). -/
def HashChain.to_list (c : HashChain) : List ChainEntry := c.chain

/-- Check, starting from expected previous hash `p`, that every entry's hash
recomputes from its own fields and that linkage holds. -/
def verifyFrom (p : String) : List ChainEntry → Bool
  | [] => true
  | e :: rest =>
    (e.hash == digestH e.index e.timestamp e.payload e.prev_hash) &&
    (e.prev_hash == p) && verifyFrom e.hash rest

/-- Modelled from the spec: `verify_integrity` recomputes every entry's hash
from its fields and confirms linkage back to the genesis sentinel. -/
def HashChain.verify_integrity (c : HashChain) : Bool :=
  verifyFrom genesis_sentinel c.chain

/-- Append a list of (payload, timestamp) pairs in order. -/
def HashChain.appendAll (c : HashChain) (ps : List (String × Nat)) : HashChain :=
  ps.foldl (fun acc p => (acc.append p.1 p.2).2) c

/-- A chain built only by `append`, starting from the empty chain. -/
def buildChain (ps : List (String × Nat)) : HashChain :=
  HashChain.appendAll ⟨[]⟩ ps

/-! ## KeyStore / Signer -/

/-- Spec data model `KeyPair`: an asymmetric key pair.  Key material is
modelled abstractly by natural numbers. -/
structure KeyPair where
  private_key : Nat
  public_key : Nat
deriving Repr, DecidableEq

/-- Modelled from the spec: `gen_rsa` of `src.crypto.keygen` (not under
`src/`) creates a fresh key pair from an entropy seed.  The asymmetric
pairing is modelled by giving both halves the same underlying number, so
that verification can recompute the signature the private half produced. -/
def gen_rsa (seed : Nat) : KeyPair := ⟨seed, seed⟩

/-- The key store of the API layer: the `rsa_keys` mapping from key id to key
pair, modelled as an association list (most recent binding first). -/
abbrev KeyStore : Type := List (String × KeyPair)

/-- Look up the key pair stored under an id. -/
def KeyStore.lookup (ks : KeyStore) (id : String) : Option KeyPair :=
  (List.find? (fun p => p.1 == id) ks).map (fun p => p.2)

/-- Store a freshly generated pair under `id`, overwriting any existing
binding for that id (the new binding shadows older ones). -/
def KeyStore.generate (ks : KeyStore) (id : String) (seed : Nat) : KeyStore :=
  (id, gen_rsa seed) :: ks

/-- Error taxonomy of the signer component (spec §7). -/
inductive CryptoError where
  | unknownKey : CryptoError
deriving Repr, DecidableEq

/-- Modelled from the spec: the deterministic signature over a message under
a key, produced by `sign` of `src.crypto.signer` (not under `src/`);
modelled as an injective deterministic encoding of key and message. -/
def rsaSig (key : Nat) (m : String) : String :=
  "RSASIG|" ++ toString key ++ "|" ++ m

/-- Modelled from the spec: `sign(id, message)` signs with the private key
stored under `id`; fails with `UnknownKeyError` if `id` is absent. -/
def KeyStore.sign (ks : KeyStore) (id : String) (m : String) :
    Except CryptoError String :=
  match ks.lookup id with
  | none => Except.error CryptoError.unknownKey
  | some kp => Except.ok (rsaSig kp.private_key m)

/-- Modelled from the spec: `verify(id, message, signature)` recomputes the
signature under the public key stored under `id` and compares; it never
raises for a malformed signature (any byte string yields a boolean) and
fails with `UnknownKeyError` only if `id` is absent. -/
def KeyStore.verify (ks : KeyStore) (id : String) (m s : String) :
    Except CryptoError Bool :=
  match ks.lookup id with
  | none => Except.error CryptoError.unknownKey
  | some kp => Except.ok (s == rsaSig kp.public_key m)

/-! ## PersistenceManager -/

/-- Tagged serializable value type used as the durable record format
(spec §9: a recursive enum of primitive / sequence values gives hashing and
persistence a canonical deterministic encoding). -/
inductive PVal where
  | num : Nat → PVal
  | str : String → PVal
  | arr : List PVal → PVal

/-- Encode one nonce record (value, first-seen instant). -/
def encNonceRecord (p : String × Nat) : PVal :=
  PVal.arr [PVal.str p.1, PVal.num p.2]

/-- Decode one nonce record. -/
def decNonceRecord : PVal → Option (String × Nat)
  | PVal.arr [PVal.str s, PVal.num n] => some (s, n)
  | _ => none

/-- Encode one key-store binding. -/
def encKeyBinding (p : String × KeyPair) : PVal :=
  PVal.arr [PVal.str p.1, PVal.num p.2.private_key, PVal.num p.2.public_key]

/-- Decode one key-store binding. -/
def decKeyBinding : PVal → Option (String × KeyPair)
  | PVal.arr [PVal.str s, PVal.num a, PVal.num b] => some (s, ⟨a, b⟩)
  | _ => none

/-- Encode one chain entry. -/
def encChainEntry (e : ChainEntry) : PVal :=
  PVal.arr [PVal.num e.index, PVal.num e.timestamp, PVal.str e.payload,
    PVal.str e.prev_hash, PVal.str e.hash]

/-- Decode one chain entry. -/
def decChainEntry : PVal → Option ChainEntry
  | PVal.arr [PVal.num i, PVal.num t, PVal.str pl, PVal.str pr, PVal.str h] =>
    some ⟨i, t, pl, pr, h⟩
  | _ => none

/-- Encode one buffered message. -/
def encMessage (m : Message) : PVal :=
  PVal.arr [PVal.str m.payload, PVal.num (if m.corrupted then 1 else 0)]

/-- Decode one buffered message. -/
def decMessage : PVal → Option Message
  | PVal.arr [PVal.str s, PVal.num 0] => some ⟨s, false⟩
  | PVal.arr [PVal.str s, PVal.num 1] => some ⟨s, true⟩
  | _ => none

/-- Decode a serialized list element by element; any malformed element makes
the whole section malformed. -/
def decList {α : Type} (dec : PVal → Option α) : List PVal → Option (List α)
  | [] => some []
  | v :: vs =>
    match dec v with
    | none => none
    | some a =>
      match decList dec vs with
      | none => none
      | some l => some (a :: l)

/-- The observable state of the persisted components, as held by the global
instances of `insightbridge_api.py` (`rsa_keys`, `nonce_store`,
`hash_chain`, `receiver`). -/
structure AppState where
  rsa_keys : KeyStore
  nonce_store : NonceStore
  hash_chain : HashChain
  receiver : Receiver
deriving DecidableEq

/-- Modelled from the spec: `PersistenceManager.save_all` (in
`src.common.persistence`, not under `src/`) serializes the key pairs, the
nonce set with timestamps, the full chain, and the receiver buffer with its
capacity into one durable record of four sections. -/
def save_all (st : AppState) : PVal :=
  PVal.arr
    [ PVal.arr (st.rsa_keys.map encKeyBinding),
      PVal.arr [PVal.arr (st.nonce_store.timestamps.map encNonceRecord),
        PVal.num st.nonce_store.max_age_seconds],
      PVal.arr (st.hash_chain.chain.map encChainEntry),
      PVal.arr [PVal.arr (st.receiver.buffer.map encMessage),
        PVal.num st.receiver.max_buffer] ]

/-- Modelled from the spec: `PersistenceManager.load_all` reads the durable
record back into component state; a malformed record yields `none`
(`PersistenceCorruptError`). -/
def load_all : PVal → Option AppState
  | PVal.arr [PVal.arr ks, PVal.arr [PVal.arr ts, PVal.num age],
      PVal.arr ch, PVal.arr [PVal.arr buf, PVal.num cap]] => do
    let keys ← decList decKeyBinding ks
    let tss ← decList decNonceRecord ts
    let entries ← decList decChainEntry ch
    let msgs ← decList decMessage buf
    some ⟨keys, ⟨tss, age⟩, ⟨entries⟩, ⟨msgs, cap⟩⟩
  | _ => none

/-! ## Endpoint layer translated from `insightbridge_api.py` -/

/-- Response body of the nonce-check endpoints
(`NonceResponse` in `insightbridge_api.py`). -/
structure ApiNonceResponse where
  accepted : Bool
  message : String
deriving Repr, DecidableEq

/-- Result of a FastAPI handler: a response, or an `HTTPException` with a
status code and detail string. -/
inductive ApiResult (α : Type) where
  | ok : α → ApiResult α
  | httpError : Nat → String → ApiResult α
deriving DecidableEq

/-- The response `check_nonce` builds from the boolean returned by
`nonce_store.check_and_add` (`insightbridge_api.py` lines 329-334). -/
def nonceResponseOf (accepted : Bool) : ApiNonceResponse :=
  ⟨accepted,
    if accepted then "Nonce accepted"
    else "Nonce already used (replay attack detected)"⟩

/-- From `insightbridge_api.py` lines 325-337: the `check_nonce` handler
wraps `nonce_store.check_and_add` in a try/except; the underlying call is
modelled by its outcome, a boolean or a raised exception's message.  On an
exception the handler raises `HTTPException(500, ...)`. -/
def insightbridge_check_nonce (call : Except String Bool) :
    ApiResult ApiNonceResponse :=
  match call with
  | Except.ok accepted => ApiResult.ok (nonceResponseOf accepted)
  | Except.error e => ApiResult.httpError 500 ("Nonce check failed: " ++ e)

/-- From `simple_test_api.py` lines 156-178: the `check_nonce` handler with
`CRYPTO_AVAILABLE` true and a live nonce store; on an exception inside
`check_and_add` it returns a response with `accepted` set to `true`. -/
def simple_check_nonce (call : Except String Bool) : ApiNonceResponse :=
  match call with
  | Except.ok accepted => nonceResponseOf accepted
  | Except.error e => ⟨true, "Nonce check failed, accepting: " ++ e⟩

/-- Response body of `/audit/status` (`AuditResponse` in
`insightbridge_api.py`). -/
structure AuditStatusResponse where
  chain_length : Nat
  last_hash : String
  total_messages : Nat
  buffer_status : String
deriving Repr, DecidableEq

/-- From `insightbridge_api.py` line 398: the buffer status string is
`healthy` when the buffer length is strictly below 80 percent of the
capacity and `warning` otherwise.  Python computes `max_buffer * 0.8` in
floating point; for every capacity below `2 ^ 50` that comparison against an
integer length coincides with the exact rational comparison used here. -/
def buffer_status_of (len cap : Nat) : String :=
  if (len : ℚ) < (cap : ℚ) * (0.8 : ℚ) then "healthy" else "warning"

/-- From `insightbridge_api.py` lines 391-408: the `get_audit_status`
handler reads the chain length, last hash, buffer length and the buffer
status string. -/
def get_audit_status (hc : HashChain) (r : Receiver) : AuditStatusResponse :=
  ⟨hc.to_list.length, hc.last_hash, r.buffer.length,
    buffer_status_of r.buffer.length r.max_buffer⟩

/-! ## Module-level initialization of `insightbridge_api.py` -/

/-- One top-level statement of a Python module: the global names whose values
it reads while being executed, and the global names it binds. -/
structure PyStmt where
  refs : List String
  binds : List String

/-- Execute top-level statements in order, threading the set of defined
global names; reading a name that is not yet defined raises `NameError` and
aborts module initialization. -/
def runModule : List String → List PyStmt → Except String (List String)
  | env, [] => Except.ok env
  | env, s :: rest =>
    match s.refs.find? (fun r => !env.contains r) with
    | some r => Except.error ("NameError: " ++ r)
    | none => runModule (env ++ s.binds) rest

/-- Globals every module starts with (dunder names set by the import
machinery). -/
def pythonInitialEnv : List String := ["__file__", "__name__"]

/-- The top-level statements of `insightbridge_api.py`, in source order:
the imports (lines 7-31), logging setup (34-35), the `app = FastAPI(...)`
call whose keyword argument reads `lifespan` (37-42), the CORS middleware
(45-51), the global instances (54-59), the `lifespan` definition whose
decorator reads `asynccontextmanager` (61-62), the pydantic model classes
(113-184), the key-initialization helper (187), the decorated endpoint
definitions, each of whose decorators reads `app` (197-408), and the
main-guard check (410). -/
def insightbridge_module_stmts : List PyStmt :=
  [ ⟨[], ["FastAPI", "HTTPException", "Depends", "Header"]⟩,
    ⟨[], ["CORSMiddleware"]⟩,
    ⟨[], ["BaseModel", "Field"]⟩,
    ⟨[], ["List", "Optional", "Dict", "Any"]⟩,
    ⟨[], ["logging"]⟩,
    ⟨[], ["uvicorn"]⟩,
    ⟨[], ["os"]⟩,
    ⟨[], ["sys"]⟩,
    ⟨[], ["Path"]⟩,
    ⟨[], ["datetime", "timezone"]⟩,
    ⟨[], ["asynccontextmanager"]⟩,
    ⟨["Path", "__file__"], ["parent_dir"]⟩,
    ⟨["sys", "parent_dir"], []⟩,
    ⟨[], ["gen_rsa"]⟩,
    ⟨[], ["load_private", "load_public", "sign", "verify"]⟩,
    ⟨[], ["create_jwt", "verify_jwt"]⟩,
    ⟨[], ["NonceStore"]⟩,
    ⟨[], ["HashChain"]⟩,
    ⟨[], ["Receiver"]⟩,
    ⟨[], ["ensure_dirs"]⟩,
    ⟨[], ["LOG_DIR", "NONCE_MAX_AGE", "RECEIVER_BUFFER_SIZE"]⟩,
    ⟨[], ["PersistenceManager"]⟩,
    ⟨["logging"], []⟩,
    ⟨["logging", "__name__"], ["logger"]⟩,
    ⟨["FastAPI", "lifespan"], ["app"]⟩,
    ⟨["app", "CORSMiddleware"], []⟩,
    ⟨["NonceStore", "NONCE_MAX_AGE"], ["nonce_store"]⟩,
    ⟨["HashChain"], ["hash_chain"]⟩,
    ⟨["Receiver", "RECEIVER_BUFFER_SIZE"], ["receiver"]⟩,
    ⟨[], ["rsa_keys"]⟩,
    ⟨[], ["startup_time"]⟩,
    ⟨["PersistenceManager"], ["persistence_manager"]⟩,
    ⟨["asynccontextmanager"], ["lifespan"]⟩,
    ⟨["BaseModel", "Field"], ["SignatureRequest"]⟩,
    ⟨["BaseModel", "Field"], ["VerifyRequest"]⟩,
    ⟨["BaseModel", "Field"], ["JWTRequest"]⟩,
    ⟨["BaseModel", "Field"], ["VerifyJWTRequest"]⟩,
    ⟨["BaseModel", "Field"], ["NonceRequest"]⟩,
    ⟨["BaseModel", "Field"], ["HashChainEntry"]⟩,
    ⟨["BaseModel", "Field"], ["MessageRequest"]⟩,
    ⟨["BaseModel"], ["HealthResponse"]⟩,
    ⟨["BaseModel"], ["SignatureResponse"]⟩,
    ⟨["BaseModel"], ["VerifyResponse"]⟩,
    ⟨["BaseModel"], ["JWTResponse"]⟩,
    ⟨["BaseModel"], ["JWTVerifyResponse"]⟩,
    ⟨["BaseModel"], ["NonceResponse"]⟩,
    ⟨["BaseModel"], ["HashChainResponse"]⟩,
    ⟨["BaseModel"], ["ReceiverResponse"]⟩,
    ⟨["BaseModel"], ["AuditResponse"]⟩,
    ⟨[], ["initialize_keys"]⟩,
    ⟨["app"], ["root"]⟩,
    ⟨["app"], ["health_check"]⟩,
    ⟨["app"], ["sign_message"]⟩,
    ⟨["app"], ["verify_signature"]⟩,
    ⟨["app"], ["create_jwt_token"]⟩,
    ⟨["app"], ["verify_jwt_token"]⟩,
    ⟨["app"], ["check_nonce"]⟩,
    ⟨["app"], ["append_to_hashchain"]⟩,
    ⟨["app"], ["get_hashchain"]⟩,
    ⟨["app"], ["receive_message"]⟩,
    ⟨["app"], ["send_heartbeat"]⟩,
    ⟨["app"], ["get_audit_status"]⟩,
    ⟨["__name__"], []⟩ ]

/-! ## The shadowed `create_jwt` handler of `simple_test_api.py` -/

/-- A Python runtime value, restricted to what the `/auth/jwt/create`
handler of `simple_test_api.py` manipulates. -/
inductive PyVal where
  | str : String → PyVal
  | importedCreateJwt : PyVal
  | endpointCreateJwt : PyVal
  | coroutine : PyVal
deriving Repr, DecidableEq

/-- Exceptions the handler body can raise. -/
inductive PyExc where
  | nameError : PyExc
  | typeError : PyExc
  | attributeError : PyExc
  | indexError : PyExc
  | valueError : PyExc
deriving Repr, DecidableEq

/-- The successive module-level bindings of the global name `create_jwt` in
`simple_test_api.py`: first the import from `src.auth.jwt_handler`
(line 25), then the decorated endpoint `async def create_jwt` (line 181),
which rebinds the same global name. -/
def simple_test_api_jwt_bindings : List (String × PyVal) :=
  [ ("create_jwt", PyVal.importedCreateJwt),
    ("create_jwt", PyVal.endpointCreateJwt) ]

/-- Resolve a global name at call time: the latest module-level binding
wins. -/
def resolveGlobal (name : String) : Option PyVal :=
  ((simple_test_api_jwt_bindings.filter (fun b => b.1 == name)).getLast?).map
    (fun b => b.2)

/-- Modelled from the spec: base64url encoding of a serialized payload, as
used by the token layout of `src.auth.jwt_handler` (not under `src/`);
modelled by an injective tagged encoding. -/
def b64encode (p : String) : String := "B64:" ++ p

/-- Inverse of `b64encode`; `none` on input that is not a valid encoding. -/
def b64decode? (s : String) : Option String :=
  if s.startsWith "B64:" then some (s.drop 4) else none

/-- Modelled from the spec: the imported `create_jwt` of
`src.auth.jwt_handler` (not under `src/`) returns a three-part dotted
`header.payload.signature` token string. -/
def real_create_jwt (payload : String) : String :=
  "header." ++ b64encode payload ++ ".sig"

/-- Calling a value with one argument: the imported function returns a token
string; calling the `async def` endpoint without awaiting it returns a
coroutine object without raising; anything else is not callable. -/
def pyCall : PyVal → String → Except PyExc PyVal
  | PyVal.importedCreateJwt, p => Except.ok (PyVal.str (real_create_jwt p))
  | PyVal.endpointCreateJwt, _ => Except.ok PyVal.coroutine
  | _, _ => Except.error PyExc.typeError

/-- Response dictionary of the `/auth/jwt/create` handler of
`simple_test_api.py`.  The mock-fallback branches add a `fallback` key; it
is modelled as a boolean that is `false` for the real-token branch. -/
structure JwtCreateResponse where
  token : String
  payload : String
  expires_at : Nat
  fallback : Bool
deriving Repr, DecidableEq

/-- From `simple_test_api.py` line 28: the crypto imports succeed in the
scenario under verification. -/
def CRYPTO_AVAILABLE : Bool := true

/-- From `simple_test_api.py` lines 184-204: the try-block of the handler.
`create_jwt(payload)` resolves the global name `create_jwt` at call time;
`token.split` succeeds only on a string value (an `AttributeError` is
raised on a coroutine); the second dotted part is then base64-decoded into
the response payload, whose `exp` claim (absent in this opaque payload
model) defaults to 0. -/
def try_real_jwt_branch (payload : String) : Except PyExc JwtCreateResponse :=
  match resolveGlobal "create_jwt" with
  | none => Except.error PyExc.nameError
  | some fn =>
    match pyCall fn payload with
    | Except.error e => Except.error e
    | Except.ok (PyVal.str token) =>
      match (token.splitOn ".").get? 1 with
      | none => Except.error PyExc.indexError
      | some seg =>
        match b64decode? seg with
        | none => Except.error PyExc.valueError
        | some decoded => Except.ok ⟨token, decoded, 0, false⟩
    | Except.ok _ => Except.error PyExc.attributeError

/-- From `simple_test_api.py` lines 180-219: the whole handler.  When the
crypto imports succeeded it runs the try-block and falls back to the mock
token on any exception; `int(time.time())` is passed as `now`. -/
def create_jwt_endpoint (payload : String) (now : Nat) : JwtCreateResponse :=
  if CRYPTO_AVAILABLE then
    match try_real_jwt_branch payload with
    | Except.ok r => r
    | Except.error _ => ⟨"mock.jwt.token", payload, now + 3600, true⟩
  else
    ⟨"mock.jwt.token", payload, now + 3600, false⟩

/-! ## Theorems -/

/-- C9: module initialization of `insightbridge_api` always fails: the
`app = FastAPI(..., lifespan=lifespan)` statement (lines 37-42) reads the
global `lifespan` before the `def lifespan` at line 61 binds it, so running
the module's top-level statements raises `NameError` and none of the API's
endpoints can ever be served. -/
theorem insightbridge_import_always_fails :
    runModule pythonInitialEnv insightbridge_module_stmts
      = Except.error ("NameError: " ++ "lifespan") := by
  rfl

/-- C10: in `simple_test_api`, for every payload the `/auth/jwt/create`
handler returns the mock token, because the endpoint `async def create_jwt`
shadows the imported `create_jwt`: the call-time resolution of the global
name yields the endpoint itself, whose un-awaited call returns a coroutine,
`token.split` then raises, and the handler lands in the mock-fallback
branch. -/
theorem simple_create_jwt_always_mock (payload : String) (now : Nat) :
    resolveGlobal "create_jwt" = some PyVal.endpointCreateJwt ∧
    create_jwt_endpoint payload now
      = ⟨"mock.jwt.token", payload, now + 3600, true⟩ := by
  exact ⟨rfl, rfl⟩

/-- C5: for every key id with a generated key pair, verifying a message
against the signature produced by signing it with that key succeeds:
`verify(k, m, sign(k, m)) = true`. -/
theorem verify_sign_roundtrip (ks : KeyStore) (id m : String) (seed : Nat) :
    ((ks.generate id seed).sign id m).bind
      (fun s => (ks.generate id seed).verify id m s) = Except.ok true := by
  simp [KeyStore.generate, KeyStore.sign, KeyStore.verify, KeyStore.lookup,
    gen_rsa, Except.bind]

/-- C7 counterexample: the exception path of `check_nonce` in
`simple_test_api.py` returns `accepted = true`, so an operational failure
inside the nonce check is converted into an accepted result. -/
theorem simple_check_nonce_accepts_on_error :
    (simple_check_nonce (Except.error "RuntimeError")).accepted = true := by
  rfl

/-- C7 (amended): in `insightbridge_api.py`, every exception arising inside
the nonce check surfaces as a distinct HTTP 500 error and is never converted
into an accepted or rejected response. -/
theorem insightbridge_check_nonce_error_surfaced (e : String) :
    insightbridge_check_nonce (Except.error e)
      = ApiResult.httpError 500 ("Nonce check failed: " ++ e) ∧
    ∀ r, insightbridge_check_nonce (Except.error e) ≠ ApiResult.ok r := by
  exact ⟨rfl, fun r h => ApiResult.noConfusion h⟩

/-- Witness for C7's amended theorem at a concrete exception. -/
theorem insightbridge_check_nonce_error_surfaced_witness :
    insightbridge_check_nonce (Except.error "boom")
      = ApiResult.httpError 500 ("Nonce check failed: " ++ "boom") :=
  (insightbridge_check_nonce_error_surfaced "boom").1

/-- C1: for a nonce value not seen within the max-age window,
`check_and_add` returns `true` and records the value with the current
instant; an immediately following call with the same value returns `false`
and leaves the nonce store unchanged. -/
theorem nonce_first_accept_then_replay_reject (s : NonceStore) (v : String)
    (now : Nat) (hage : 0 < s.max_age_seconds)
    (hfresh : s.seenWithin v now = false) :
    (s.check_and_add v now).1 = true ∧
    (s.check_and_add v now).2.lookup v = some now ∧
    ((s.check_and_add v now).2.check_and_add v now).1 = false ∧
    ((s.check_and_add v now).2.check_and_add v now).2
      = (s.check_and_add v now).2 := by
  have h1 : s.check_and_add v now
      = (true, ⟨(v, now) :: s.timestamps, s.max_age_seconds⟩) := by
    simp [NonceStore.check_and_add, hfresh]
  have hlk : NonceStore.lookup ⟨(v, now) :: s.timestamps, s.max_age_seconds⟩ v
      = some now := by
    simp [NonceStore.lookup, List.find?]
  have hseen : NonceStore.seenWithin
      ⟨(v, now) :: s.timestamps, s.max_age_seconds⟩ v now = true := by
    simp [NonceStore.seenWithin, hlk]
    omega
  have h2 : NonceStore.check_and_add
      ⟨(v, now) :: s.timestamps, s.max_age_seconds⟩ v now
      = (false, ⟨(v, now) :: s.timestamps, s.max_age_seconds⟩) := by
    simp [NonceStore.check_and_add, hseen]
  rw [h1]
  exact ⟨rfl, hlk, by rw [h2], by rw [h2]⟩

/-- Witness for C1 on the empty store with max-age 5. -/
theorem nonce_first_accept_then_replay_reject_witness :
    ((0 : Nat) < 5 ∧
      NonceStore.seenWithin ⟨[], 5⟩ "n1" 0 = false) ∧
    ((NonceStore.check_and_add ⟨[], 5⟩ "n1" 0).1 = true ∧
      (NonceStore.check_and_add ⟨[], 5⟩ "n1" 0).2.lookup "n1" = some 0 ∧
      ((NonceStore.check_and_add ⟨[], 5⟩ "n1" 0).2.check_and_add "n1" 0).1
        = false ∧
      ((NonceStore.check_and_add ⟨[], 5⟩ "n1" 0).2.check_and_add "n1" 0).2
        = (NonceStore.check_and_add ⟨[], 5⟩ "n1" 0).2) :=
  ⟨⟨by decide, by decide⟩,
    nonce_first_accept_then_replay_reject ⟨[], 5⟩ "n1" 0 (by decide) (by decide)⟩

/-- Receiving a message never changes the configured capacity. -/
theorem receive_preserves_max_buffer (r : Receiver) (m : Message) :
    ((r.receive m).2).max_buffer = r.max_buffer := by
  simp only [Receiver.receive]
  split
  · rfl
  · split
    · rfl
    · rfl

/-- Receiving a message preserves the buffer-length bound. -/
theorem receive_preserves_length_le (r : Receiver) (m : Message)
    (h : r.buffer.length ≤ r.max_buffer) :
    ((r.receive m).2).buffer.length ≤ ((r.receive m).2).max_buffer := by
  simp only [Receiver.receive]
  split
  · exact h
  · split
    · exact h
    · rename_i hfull
      simp only [List.length_append, List.length_singleton]
      omega

/-- Unfolding lemma for `receiveAll` on a cons cell. -/
theorem receiveAll_cons (r : Receiver) (m : Message) (ms : List Message) :
    r.receiveAll (m :: ms) = ((r.receive m).2).receiveAll ms := rfl

/-- Feeding any message list preserves the bound and the capacity. -/
theorem receiveAll_invariant (ms : List Message) (r : Receiver)
    (h : r.buffer.length ≤ r.max_buffer) :
    (r.receiveAll ms).buffer.length ≤ (r.receiveAll ms).max_buffer ∧
    (r.receiveAll ms).max_buffer = r.max_buffer := by
  induction ms generalizing r with
  | nil => exact ⟨h, rfl⟩
  | cons m ms ih =>
    rw [receiveAll_cons]
    have hstep := receive_preserves_length_le r m h
    have hmax := receive_preserves_max_buffer r m
    have := ih ((r.receive m).2) hstep
    exact ⟨this.1, by rw [this.2, hmax]⟩

/-- C3: the buffer length never exceeds the configured capacity under any
sequence of `receive` calls; a valid message is accepted and appended while
the buffer is below capacity; and once the buffer holds exactly `capacity`
messages any further `receive` returns `false` with the receiver
unchanged. -/
theorem receiver_capacity_bound (r : Receiver) (ms : List Message)
    (m : Message) (hinv : r.buffer.length ≤ r.max_buffer) :
    (r.receiveAll ms).buffer.length ≤ r.max_buffer ∧
    (m.valid = true → r.buffer.length < r.max_buffer →
      (r.receive m).1 = true ∧ (r.receive m).2.buffer = r.buffer ++ [m]) ∧
    (r.buffer.length = r.max_buffer →
      (r.receive m).1 = false ∧ (r.receive m).2 = r) := by
  refine ⟨?_, ?_, ?_⟩
  · have h := receiveAll_invariant ms r hinv
    rw [h.2] at h
    exact h.1
  · intro hv hlt
    constructor
    · simp [Receiver.receive, hv, Nat.not_le.mpr hlt]
    · simp [Receiver.receive, hv, Nat.not_le.mpr hlt]
  · intro heq
    have hfull : r.max_buffer ≤ r.buffer.length := le_of_eq heq.symm
    cases hm : m.valid with
    | false => exact ⟨by simp [Receiver.receive, hm], by simp [Receiver.receive, hm]⟩
    | true =>
      constructor
      · simp [Receiver.receive, hm, hfull]
      · simp [Receiver.receive, hm, hfull]

/-- Witness for C3 on a capacity-2 receiver fed three valid messages. -/
theorem receiver_capacity_bound_witness :
    ((Receiver.buffer ⟨[], 2⟩).length ≤ 2) ∧
    ((Receiver.receiveAll ⟨[], 2⟩
        [⟨"a", false⟩, ⟨"b", false⟩, ⟨"c", false⟩]).buffer.length ≤ 2 ∧
      (Message.valid ⟨"c", false⟩ = true →
        (Receiver.buffer ⟨[], 2⟩).length < 2 →
        (Receiver.receive ⟨[], 2⟩ ⟨"c", false⟩).1 = true ∧
        (Receiver.receive ⟨[], 2⟩ ⟨"c", false⟩).2.buffer
          = Receiver.buffer ⟨[], 2⟩ ++ [⟨"c", false⟩]) ∧
      ((Receiver.buffer ⟨[], 2⟩).length = 2 →
        (Receiver.receive ⟨[], 2⟩ ⟨"c", false⟩).1 = false ∧
        (Receiver.receive ⟨[], 2⟩ ⟨"c", false⟩).2 = ⟨[], 2⟩)) :=
  ⟨by decide,
    receiver_capacity_bound ⟨[], 2⟩ [⟨"a", false⟩, ⟨"b", false⟩, ⟨"c", false⟩]
      ⟨"c", false⟩ (by decide)⟩

/-- C6: for every key id, message and signature byte string (including
malformed ones), `verify` returns a boolean whenever the key id is present,
and it fails with `UnknownKeyError` exactly when the key id is absent from
the key store. -/
theorem verify_never_raises_unknown_key_only (ks : KeyStore) (id m s : String)
    (e : CryptoError) :
    (ks.lookup id ≠ none → ∃ b, ks.verify id m s = Except.ok b) ∧
    (ks.verify id m s = Except.error e ↔
      (ks.lookup id = none ∧ e = CryptoError.unknownKey)) := by
  cases hlk : ks.lookup id with
  | none =>
    constructor
    · intro h
      exact absurd rfl h
    · cases e
      simp [KeyStore.verify, hlk]
  | some kp =>
    constructor
    · intro _
      exact ⟨(s == rsaSig kp.public_key m), by simp [KeyStore.verify, hlk]⟩
    · simp [KeyStore.verify, hlk]

/-- Witness for C6 on a one-key store and a malformed signature string. -/
theorem verify_never_raises_unknown_key_only_witness :
    (KeyStore.lookup [("default", gen_rsa 7)] "default" ≠ none →
      ∃ b, KeyStore.verify [("default", gen_rsa 7)] "default" "msg" "garbage"
        = Except.ok b) ∧
    (KeyStore.verify [("default", gen_rsa 7)] "default" "msg" "garbage"
        = Except.error CryptoError.unknownKey ↔
      (KeyStore.lookup [("default", gen_rsa 7)] "default" = none ∧
        CryptoError.unknownKey = CryptoError.unknownKey)) :=
  verify_never_raises_unknown_key_only [("default", gen_rsa 7)] "default"
    "msg" "garbage" CryptoError.unknownKey

/-- C8: the `/audit/status` handler reports the buffer status as `warning`
exactly when the buffer length has reached 80 percent of the capacity, and
as `healthy` exactly when it is strictly below that threshold. -/
theorem audit_buffer_status_threshold (hc : HashChain) (r : Receiver)
    (_hcap : 0 < r.max_buffer) :
    ((get_audit_status hc r).buffer_status = "warning" ↔
      (0.8 : ℚ) * (r.max_buffer : ℚ) ≤ (r.buffer.length : ℚ)) ∧
    ((get_audit_status hc r).buffer_status = "healthy" ↔
      (r.buffer.length : ℚ) < (0.8 : ℚ) * (r.max_buffer : ℚ)) := by
  have hne : ("healthy" : String) ≠ "warning" := by decide
  simp only [get_audit_status, buffer_status_of]
  by_cases hcase :
      ((r.buffer.length : ℚ)) < (r.max_buffer : ℚ) * (0.8 : ℚ)
  · rw [if_pos hcase]
    constructor
    · exact iff_of_false (fun h => hne h)
        (by rw [mul_comm]; exact not_le.mpr hcase)
    · exact iff_of_true rfl (by rw [mul_comm] at hcase; exact hcase)
  · rw [if_neg hcase]
    constructor
    · exact iff_of_true rfl (by rw [mul_comm] at hcase; exact not_lt.mp hcase)
    · exact iff_of_false (fun h => hne h.symm)
        (by rw [mul_comm]; exact hcase)

/-- Witness for C8 on a capacity-1 receiver holding one message (at 100
percent, reported as warning). -/
theorem audit_buffer_status_threshold_witness :
    ((0 : Nat) < 1) ∧
    (((get_audit_status ⟨[]⟩ ⟨[⟨"m", false⟩], 1⟩).buffer_status = "warning" ↔
        (0.8 : ℚ) * (((1 : Nat) : ℚ)) ≤ (((1 : Nat) : ℚ))) ∧
      ((get_audit_status ⟨[]⟩ ⟨[⟨"m", false⟩], 1⟩).buffer_status = "healthy" ↔
        (((1 : Nat) : ℚ)) < (0.8 : ℚ) * (((1 : Nat) : ℚ)))) :=
  ⟨by decide, audit_buffer_status_threshold ⟨[]⟩ ⟨[⟨"m", false⟩], 1⟩ (by decide)⟩

/-- The last element of a list extended on the right. -/
theorem getLast?_append_single {α : Type} (l : List α) (a : α) :
    (l ++ [a]).getLast? = some a := by
  induction l with
  | nil => rfl
  | cons x xs ih =>
    rw [List.cons_append]
    cases hxs : xs ++ [a] with
    | nil => exact absurd hxs (by simp)
    | cons y ys =>
      rw [List.getLast?_cons_cons]
      rw [← hxs, ih]

/-- `lastHashFrom` steps over a head entry. -/
theorem lastHashFrom_cons (p : String) (a : ChainEntry) (l : List ChainEntry) :
    lastHashFrom p (a :: l) = lastHashFrom a.hash l := rfl

/-- `lastHashFrom` of a right-extended list is the new entry's hash. -/
theorem lastHashFrom_append_single (p : String) (l : List ChainEntry)
    (e : ChainEntry) : lastHashFrom p (l ++ [e]) = e.hash := by
  induction l generalizing p with
  | nil => rfl
  | cons a l ih => exact ih a.hash

/-- Appending a hash-consistent, correctly linked entry preserves
`verifyFrom`. -/
theorem verifyFrom_snoc (p : String) (l : List ChainEntry) (e : ChainEntry)
    (hl : verifyFrom p l = true)
    (hh : e.hash = digestH e.index e.timestamp e.payload e.prev_hash)
    (hp : e.prev_hash = lastHashFrom p l) :
    verifyFrom p (l ++ [e]) = true := by
  induction l generalizing p with
  | nil =>
    have hp' : e.prev_hash = p := hp
    simp [verifyFrom, hh, hp']
  | cons a l ih =>
    rw [List.cons_append]
    simp only [verifyFrom, Bool.and_eq_true, beq_iff_eq] at hl ⊢
    refine ⟨⟨hl.1.1, hl.1.2⟩, ?_⟩
    exact ih a.hash hl.2 (by rw [hp, lastHashFrom_cons])

/-- Unfolding lemma for `appendAll` on a cons cell. -/
theorem appendAll_cons (c : HashChain) (p : String × Nat)
    (ps : List (String × Nat)) :
    c.appendAll (p :: ps) = ((c.append p.1 p.2).2).appendAll ps := rfl

/-- `appendAll` preserves chain integrity. -/
theorem appendAll_verify (ps : List (String × Nat)) (c : HashChain)
    (h : verifyFrom genesis_sentinel c.chain = true) :
    verifyFrom genesis_sentinel (c.appendAll ps).chain = true := by
  induction ps generalizing c with
  | nil => exact h
  | cons p ps ih =>
    rw [appendAll_cons]
    exact ih _ (verifyFrom_snoc genesis_sentinel c.chain _ h rfl rfl)

/-- In a list passing `verifyFrom`, every entry after the first links to its
predecessor's hash. -/
theorem verifyFrom_link (p : String) (l : List ChainEntry)
    (hok : verifyFrom p l = true) :
    ∀ n, n + 1 < l.length →
      (l.getD (n + 1) default).prev_hash = (l.getD n default).hash := by
  induction l generalizing p with
  | nil =>
    intro n hn
    exact absurd hn (by simp)
  | cons a l ih =>
    simp only [verifyFrom, Bool.and_eq_true, beq_iff_eq] at hok
    intro n hn
    cases n with
    | zero =>
      cases l with
      | nil => exact absurd hn (by simp)
      | cons b l =>
        simp only [List.getD_cons_succ, List.getD_cons_zero]
        have hrest := hok.2
        simp only [verifyFrom, Bool.and_eq_true, beq_iff_eq] at hrest
        exact hrest.1.2
    | succ k =>
      simp only [List.getD_cons_succ]
      exact ih a.hash hok.2 k (by simpa using Nat.lt_of_succ_lt_succ hn)

/-- C2: the audit-chain hash-chain invariant under append: `last_hash` of
the empty chain is the genesis sentinel; on a chain built only by `append`,
every entry after the first has `prev_hash` equal to its predecessor's hash
and `verify_integrity` holds; and the hash the append endpoint reports as
`previous_hash` (the pre-append `last_hash`) equals the appended entry's
`prev_hash`. -/
theorem hashchain_append_invariant (ps : List (String × Nat)) (p : String)
    (t i : Nat) (h0 : 0 < i) (hi : i < (buildChain ps).chain.length) :
    HashChain.last_hash ⟨[]⟩ = genesis_sentinel ∧
    ((buildChain ps).chain.getD i default).prev_hash
      = ((buildChain ps).chain.getD (i - 1) default).hash ∧
    (buildChain ps).verify_integrity = true ∧
    (((buildChain ps).append p t).2.chain.getLast?).map ChainEntry.prev_hash
      = some ((buildChain ps).last_hash) := by
  have hv : verifyFrom genesis_sentinel (buildChain ps).chain = true :=
    appendAll_verify ps ⟨[]⟩ rfl
  refine ⟨rfl, ?_, hv, ?_⟩
  · have hl := verifyFrom_link genesis_sentinel (buildChain ps).chain hv
      (i - 1) (by omega)
    have heq : i - 1 + 1 = i := by omega
    rwa [heq] at hl
  · simp only [HashChain.append]
    rw [getLast?_append_single]
    rfl

/-- Witness for C2 on a two-append chain at index 1. -/
theorem hashchain_append_invariant_witness :
    ((0 : Nat) < 1 ∧ 1 < (buildChain [("a", 1), ("b", 2)]).chain.length) ∧
    (HashChain.last_hash ⟨[]⟩ = genesis_sentinel ∧
      ((buildChain [("a", 1), ("b", 2)]).chain.getD 1 default).prev_hash
        = ((buildChain [("a", 1), ("b", 2)]).chain.getD 0 default).hash ∧
      (buildChain [("a", 1), ("b", 2)]).verify_integrity = true ∧
      (((buildChain [("a", 1), ("b", 2)]).append "c" 3).2.chain.getLast?).map
          ChainEntry.prev_hash
        = some ((buildChain [("a", 1), ("b", 2)]).last_hash)) :=
  ⟨⟨by decide, by decide⟩,
    hashchain_append_invariant [("a", 1), ("b", 2)] "c" 3 1 (by decide)
      (by decide)⟩

/-- Round trip of one nonce record through serialization. -/
theorem decNonceRecord_enc (p : String × Nat) :
    decNonceRecord (encNonceRecord p) = some p := rfl

/-- Round trip of one key-store binding through serialization. -/
theorem decKeyBinding_enc (p : String × KeyPair) :
    decKeyBinding (encKeyBinding p) = some p := rfl

/-- Round trip of one chain entry through serialization. -/
theorem decChainEntry_enc (e : ChainEntry) :
    decChainEntry (encChainEntry e) = some e := rfl

/-- Round trip of one buffered message through serialization. -/
theorem decMessage_enc (m : Message) :
    decMessage (encMessage m) = some m := by
  cases m with
  | mk payload corrupted => cases corrupted <;> rfl

/-- Round trip of a whole serialized list. -/
theorem decList_map {α : Type} (enc : α → PVal) (dec : PVal → Option α)
    (h : ∀ a, dec (enc a) = some a) (l : List α) :
    decList dec (l.map enc) = some l := by
  induction l with
  | nil => rfl
  | cons a l ih => simp [decList, h a, ih]

/-- C4: restoring immediately after a snapshot with no intervening mutation
reproduces an observably identical state for every component: the same key
bindings, the same nonce set with timestamps, the same chain entries in
order, and the same receiver buffer contents and capacity. -/
theorem persistence_snapshot_restore_roundtrip (st : AppState) :
    load_all (save_all st) = some st := by
  obtain ⟨ks, ⟨ts, age⟩, ⟨ch⟩, ⟨buf, cap⟩⟩ := st
  simp [save_all, load_all,
    decList_map encKeyBinding decKeyBinding decKeyBinding_enc,
    decList_map encNonceRecord decNonceRecord decNonceRecord_enc,
    decList_map encChainEntry decChainEntry decChainEntry_enc,
    decList_map encMessage decMessage decMessage_enc]

end InsightBridge
